import Mathlib

/-!
# go-todo-app: a verification development

A shallow embedding of the todo CRUD backend:

* `mementodb.TodoAdapter`  the in-memory repository adapter
  (`app/infra/adapters/mementodb/todo_adapter.go`);
* `mongodb.TodoAdapter`    the document-store adapter
  (`app/infra/adapter/mongodb/todo_adapter.go`);
* `controller.TodoController` the HTTP handlers
  (`internal/api/controller/todo_controller.go`);
* `services.TodoService`   the service layer (source absent, modelled from the spec).

Go conventions used throughout:

* a Go `error` value is `Option GoError`, `none` being `nil`;
* a Go slice is `Slice α = Option (List α)`, `none` being the `nil` slice;
* a multi-value return `(v, err)` is a pair;
* process-wide mutable state (the in-memory map, the database connection, the
  clock, the identifier generator) is passed explicitly.
-/

/-! ## Go values -/

/-- A Go `error` built by `errors.New(msg)`. -/
structure GoError where
  msg : String
  deriving DecidableEq, Repr

/-- A Go slice: `none` is the `nil` slice, `some l` a non-nil slice with elements `l`. -/
abbrev Slice (α : Type) := Option (List α)

namespace Slice

/-- Go `append(s, v)`: appending to the `nil` slice allocates. -/
def append {α : Type} (s : Slice α) (v : α) : Slice α :=
  match s with
  | none => some [v]
  | some l => some (l ++ [v])

/-- Go `make([]T, 0)`: a non-nil slice of length zero. -/
def make0 {α : Type} : Slice α := some []

/-- The elements visited by `for _, v := range s`. -/
def elems {α : Type} (s : Slice α) : List α :=
  match s with
  | none => []
  | some l => l

/-- Go `len(s)`. -/
def len {α : Type} (s : Slice α) : Nat := (elems s).length

end Slice

/-- An instant of `time.Time`, as a count of clock ticks. -/
abbrev Time := Nat

/-! ## `github.com/google/uuid` -/

namespace uuid

/-- A `uuid.UUID` is an array of 16 bytes. -/
structure UUID where
  bytes : List (Fin 256)
  len16 : bytes.length = 16
  deriving DecidableEq

/-- The nil identifier `uuid.Nil`: sixteen zero bytes. -/
def Nil : UUID := ⟨List.replicate 16 0, by decide⟩

/-- One lower-case hexadecimal digit. -/
def hexDigit (n : Nat) : Char :=
  if n < 10 then Char.ofNat (48 + n) else Char.ofNat (87 + n)

/-- The two hexadecimal digits of a byte. -/
def hexByte (b : Fin 256) : List Char := [hexDigit (b.val / 16), hexDigit (b.val % 16)]

/-- The characters of the canonical form `xxxxxxxx-xxxx-xxxx-xxxx-xxxxxxxxxxxx`. -/
def encodeHex (bs : List (Fin 256)) : List Char :=
  ((bs.take 4).map hexByte).flatten ++ '-' ::
  (((bs.drop 4).take 2).map hexByte).flatten ++ '-' ::
  (((bs.drop 6).take 2).map hexByte).flatten ++ '-' ::
  (((bs.drop 8).take 2).map hexByte).flatten ++ '-' ::
  ((bs.drop 10).map hexByte).flatten

/-- The method `UUID.String`. -/
def UUID.String (u : UUID) : String := String.mk (encodeHex u.bytes)

end uuid

/-! ## The in-memory adapter -/

namespace mementodb

open uuid

/-- Modelled from the spec: the record type `todo.Todo` (its declaration is not among the
sources): identifier, title, description, completion flag, created/updated timestamps. -/
structure Todo where
  Id : UUID
  Title : String
  Description : String
  Completed : Bool
  CreatedAt : Time
  UpdatedAt : Time
  deriving DecidableEq

/-- The zero value `todo.Todo{}`. -/
def Todo.zero : Todo :=
  { Id := uuid.Nil, Title := "", Description := "", Completed := false,
    CreatedAt := 0, UpdatedAt := 0 }

/-- The package-level `todoCollection`, a `map[string]todo.Todo`, as an association list.
A key is bound to the first entry that carries it. -/
abbrev Collection := List (String × Todo)

namespace Collection

/-- The map read `v, ok := m[k]`. -/
def get (m : Collection) (k : String) : Option Todo := List.lookup k m

/-- The map write `m[k] = v`. -/
def set (m : Collection) (k : String) (v : Todo) : Collection :=
  (k, v) :: m.filter (fun p => p.1 != k)

/-- The builtin `delete(m, k)`. -/
def delete (m : Collection) (k : String) : Collection :=
  m.filter (fun p => p.1 != k)

/-- The values visited by `for _, v := range m` (Go leaves the order unspecified). -/
def values (m : Collection) : List Todo := m.map Prod.snd

/-- The keys of the map. -/
def keys (m : Collection) : List String := m.map Prod.fst

/-- Each record is stored under the string form of its own identifier. -/
def keyedById (m : Collection) : Prop := ∀ p ∈ m, p.2.Id.String = p.1

instance (m : Collection) : Decidable (keyedById m) := by
  unfold keyedById; infer_instance

end Collection

/-- The message of the not-found error. -/
def notFound : GoError := ⟨"Item not found"⟩

namespace TodoAdapter

/-- `TodoAdapter.GetById`. -/
def GetById (m : Collection) (id : UUID) : Todo × Option GoError :=
  match Collection.get m id.String with
  | some existingEntity => (existingEntity, none)
  | none => (Todo.zero, some notFound)

/-- `TodoAdapter.GetAll`. -/
def GetAll (m : Collection) : Slice Todo × Option GoError :=
  ((Collection.values m).foldl Slice.append none, none)

/-- `TodoAdapter.Insert`; `newId` is the value of `uuid.New()`, `now1` and `now2` the two
readings of `utils.UtcNow()`. Returns the collection afterwards and the Go results. -/
def Insert (m : Collection) (entity : Todo) (newId : UUID) (now1 now2 : Time) :
    Collection × (UUID × Option GoError) :=
  let entity := { entity with Id := newId }
  let entity := { entity with CreatedAt := now1 }
  let entity := { entity with UpdatedAt := now2 }
  (Collection.set m entity.Id.String entity, (entity.Id, none))

/-- `TodoAdapter.Update`; `now` is the reading of `utils.UtcNow()`. -/
def Update (m : Collection) (entity : Todo) (now : Time) :
    Collection × (Bool × Option GoError) :=
  match Collection.get m entity.Id.String with
  | some existingEntity =>
    let updatedEntity := existingEntity
    let updatedEntity := { updatedEntity with Title := entity.Title }
    let updatedEntity := { updatedEntity with UpdatedAt := now }
    (Collection.set m entity.Id.String updatedEntity, (true, none))
  | none => (m, (false, some notFound))

/-- `TodoAdapter.Delete`. -/
def Delete (m : Collection) (id : UUID) : Collection × (Bool × Option GoError) :=
  match Collection.get m id.String with
  | some _ => (Collection.delete m id.String, (true, none))
  | none => (m, (false, some notFound))

end TodoAdapter

/-! Histories of adapter calls, to speak of the write that came before a call. -/

/-- A call of the adapter that can change the collection, with the values it draws from the
identifier generator and from the clock. -/
inductive Call where
  /-- The call `Insert(entity)`, drawing `newId`, `now1` and `now2`. -/
  | insert (entity : Todo) (newId : UUID) (now1 now2 : Time)
  /-- The call `Update(entity)`, drawing `now`. -/
  | update (entity : Todo) (now : Time)
  /-- The call `Delete(id)`. -/
  | delete (id : UUID)

/-- The collection after a call. -/
def Call.run (c : Call) (m : Collection) : Collection :=
  match c with
  | .insert entity newId now1 now2 => (TodoAdapter.Insert m entity newId now1 now2).1
  | .update entity now => (TodoAdapter.Update m entity now).1
  | .delete id => (TodoAdapter.Delete m id).1

/-- The collection after a history of calls, the oldest first. -/
def runAll (cs : List Call) (m : Collection) : Collection :=
  match cs with
  | [] => m
  | c :: cs => runAll cs (c.run m)

/-- The clock reading a call takes when it writes the record under key `k` of collection
`m`: an `Insert` under that key takes `now2` for UpdatedAt, an `Update` of that key, when it
is stored, takes `now`; any other call does not write that record. -/
def Call.reading (c : Call) (m : Collection) (k : String) : Option Time :=
  match c with
  | .insert _ newId _ now2 => if newId.String = k then some now2 else none
  | .update entity now =>
    if entity.Id.String = k ∧ (Collection.get m k).isSome then some now else none
  | .delete _ => none

/-- The clock reading taken by the last write of the record under key `k` in a history of
calls run from collection `m`; `none` when no call of the history writes that record. -/
def lastReading (k : String) (m : Collection) (cs : List Call) : Option Time :=
  match cs with
  | [] => none
  | c :: cs =>
    match lastReading k (c.run m) cs with
    | some t => some t
    | none => c.reading m k

/-! Sample values, used to evaluate the adapter on concrete inputs. -/

/-- An identifier other than the nil one: `01010101-0101-0101-0101-010101010101`. -/
def sampleId : UUID := ⟨List.replicate 16 1, by decide⟩

/-- A stored record, with the field values of the service tests. -/
def sampleTodo : Todo :=
  { Id := sampleId, Title := "Task 1", Description := "Task 1 Desc", Completed := false,
    CreatedAt := 5, UpdatedAt := 7 }

/-- A collection holding `sampleTodo` under its own identifier. -/
def sampleStore : Collection := [(sampleId.String, sampleTodo)]

/-- A request to change every mutable field of `sampleTodo`. -/
def sampleChange : Todo :=
  { Id := sampleId, Title := "Foo", Description := "Foo Description", Completed := true,
    CreatedAt := 0, UpdatedAt := 0 }

/-- A second identifier: `02020202-0202-0202-0202-020202020202`. -/
def sampleIdB : UUID := ⟨List.replicate 16 2, by decide⟩

/-- The history that inserts `sampleTodo` under `sampleId` with readings 5 and 7, and then
another record under `sampleIdB` with readings 8 and 8. -/
def sampleHistory : List Call :=
  [Call.insert sampleTodo sampleId 5 7, Call.insert sampleChange sampleIdB 8 8]

/-- The collection of two records that `sampleHistory` builds from the empty one; the record
of `sampleId` is not the one written last. -/
def sampleStore2 : Collection := runAll sampleHistory []

end mementodb

/-! ## The domain identifier -/

namespace domain

/-- Modelled from the spec: the type `domain.ID` (its declaration is not among the sources),
an opaque string-like identifier; the controller builds one by the conversion
`domain.ID(todoId)`. -/
structure ID where
  val : String
  deriving DecidableEq

/-- The method `ID.String`. -/
def ID.String (id : ID) : String := id.val

end domain

/-! ## The document-store adapter -/

namespace mongodb

open domain

/-- The domain record `todo.Todo` of the document-store adapter, with a `domain.ID`. -/
structure Todo where
  Id : ID
  Title : String
  Description : String
  Completed : Bool
  CreatedAt : Time
  UpdatedAt : Time
  deriving DecidableEq

/-- Modelled from the spec: the database context `DbContext` (its declaration is not among
the sources). The adapter "opens a connection per call ... closes the connection": the
state records whether the connection is open. -/
structure DbContext where
  connected : Bool
  deriving DecidableEq

/-- Modelled from the spec: `DbContext.Connect` opens the connection. -/
def DbContext.Connect (_db : DbContext) : DbContext := { connected := true }

/-- Modelled from the spec: `DbContext.Disconnect` closes the connection. -/
def DbContext.Disconnect (_db : DbContext) : DbContext := { connected := false }

/-- A driver cursor: the documents that `cur.Next` steps through, each with the entity left
in place by `cur.Decode` and the error `Decode` returned, and the final `cur.Err()`. -/
structure Cursor (Doc : Type) where
  docs : List (Doc × Option GoError)
  err : Option GoError

/-- The `$set` document that `Update` sends. -/
structure SetDocument where
  title : String
  description : String
  completed : Bool
  updated_at : Time
  deriving DecidableEq

/-- The driver and the persistence record the adapter calls into, none of which is among
the sources; each call is given by its result. `OID` is `primitive.ObjectID`, `Doc` the
persistence record `mongodb.Todo`. -/
structure Driver (OID Doc : Type) where
  /-- The function `primitive.ObjectIDFromHex`. -/
  objectIDFromHex : String → Except GoError OID
  /-- The hexadecimal form `ObjectID.Hex`. -/
  hex : OID → String
  /-- The method `Todo.ToModel` of the persistence record. -/
  toModel : Doc → Todo
  /-- The method `Todo.FromModel` of the persistence record: the record and the error. -/
  fromModel : Todo → Doc × Option GoError
  /-- The query `TodoCollection.Find` with the empty filter. -/
  find : Except GoError (Cursor Doc)
  /-- The query `TodoCollection.FindOne(filter).Decode(&t)`: the record and the error. -/
  findOne : OID → Doc × Option GoError
  /-- The command `TodoCollection.InsertOne`: the inserted identifier, or the error. -/
  insertOne : Doc → Except GoError OID
  /-- The command `TodoCollection.UpdateOne`: the matched count, or the error. -/
  updateOne : OID → SetDocument → Except GoError Nat
  /-- The command `TodoCollection.DeleteOne`: the deleted count, or the error. -/
  deleteOne : OID → Except GoError Nat

namespace TodoAdapter

variable {OID Doc : Type}

/-- `TodoAdapter.GetAll`. The `defer adapter.DbCtx.Disconnect()` stands after both early
returns, so it is registered, and runs, only on the last return. -/
def GetAll (drv : Driver OID Doc) (db : DbContext) :
    DbContext × (Slice Todo × Option GoError) :=
  let todos : Slice Todo := none
  let db := db.Connect
  match drv.find with
  | .error err => (db, (none, some err))
  | .ok cur =>
    let todos := cur.docs.foldl (fun acc d => Slice.append acc (drv.toModel d.1)) todos
    match cur.err with
    | some err => (db, (none, some err))
    | none => (db.Disconnect, (todos, none))

/-- `TodoAdapter.GetById`. The `defer` is registered before the error check. -/
def GetById (drv : Driver OID Doc) (db : DbContext) (id : ID) :
    DbContext × (Option Todo × Option GoError) :=
  match drv.objectIDFromHex id.String with
  | .error err => (db, (none, some err))
  | .ok oid =>
    let db := db.Connect
    let (t, err) := drv.findOne oid
    match err with
    | some err => (db.Disconnect, (none, some err))
    | none => (db.Disconnect, (some (drv.toModel t), none))

/-- `TodoAdapter.Insert`; `none` is `domain.NilID`. -/
def Insert (drv : Driver OID Doc) (db : DbContext) (todo : Todo) :
    DbContext × (Option ID × Option GoError) :=
  let (t, err) := drv.fromModel todo
  match err with
  | some err => (db, (none, some err))
  | none =>
    let db := db.Connect
    match drv.insertOne t with
    | .error err => (db.Disconnect, (none, some err))
    | .ok insertedID => (db.Disconnect, (some ⟨drv.hex insertedID⟩, none))

/-- `TodoAdapter.Update`; `now` is the reading of `datetime.Now()`. -/
def Update (drv : Driver OID Doc) (db : DbContext) (todo : Todo) (now : Time) :
    DbContext × Option GoError :=
  match drv.objectIDFromHex todo.Id.String with
  | .error err => (db, some err)
  | .ok oid =>
    let document : SetDocument :=
      { title := todo.Title, description := todo.Description,
        completed := todo.Completed, updated_at := now }
    let db := db.Connect
    match drv.updateOne oid document with
    | .error err => (db.Disconnect, some err)
    | .ok matchedCount =>
      if matchedCount > 0 then (db.Disconnect, none)
      else (db.Disconnect, some ⟨"no items have been updated"⟩)

/-- `TodoAdapter.Delete`. -/
def Delete (drv : Driver OID Doc) (db : DbContext) (id : ID) :
    DbContext × Option GoError :=
  match drv.objectIDFromHex id.String with
  | .error err => (db, some err)
  | .ok oid =>
    let db := db.Connect
    match drv.deleteOne oid with
    | .error err => (db.Disconnect, some err)
    | .ok deletedCount =>
      if deletedCount > 0 then (db.Disconnect, none)
      else (db.Disconnect, some ⟨"no item has been deleted"⟩)

end TodoAdapter

/-! Sample values, used to evaluate the adapter on concrete inputs. -/

/-- A record with the field values of the service tests. -/
def sampleTodo : Todo :=
  { Id := ⟨"5f9d1c2e8b3a4d0012345678"⟩, Title := "Foo", Description := "Foo Description",
    Completed := false, CreatedAt := 5, UpdatedAt := 7 }

/-- A driver every query and command of which fails with "connection error"; object
identifiers are their hexadecimal strings and the persistence record is the domain one. -/
def failingDriver : Driver String Todo :=
  { objectIDFromHex := fun s => .ok s
    hex := fun oid => oid
    toModel := fun t => t
    fromModel := fun t => (t, none)
    find := .error ⟨"connection error"⟩
    findOne := fun _ => (sampleTodo, some ⟨"connection error"⟩)
    insertOne := fun _ => .error ⟨"connection error"⟩
    updateOne := fun _ _ => .error ⟨"connection error"⟩
    deleteOne := fun _ => .error ⟨"connection error"⟩ }

/-- A driver whose `Find` succeeds and whose cursor then reports an error. -/
def brokenCursorDriver : Driver String Todo :=
  { failingDriver with find := .ok ⟨[(sampleTodo, none)], some ⟨"cursor error"⟩⟩ }

end mongodb

/-! ## The controller -/

namespace controller

open domain

/-- The status constants of `net/http` that the handlers use. -/
def StatusOK : Nat := 200
/-- The constant `http.StatusCreated`. -/
def StatusCreated : Nat := 201
/-- The constant `http.StatusNoContent`. -/
def StatusNoContent : Nat := 204
/-- The constant `http.StatusBadRequest`. -/
def StatusBadRequest : Nat := 400
/-- The constant `http.StatusNotFound`. -/
def StatusNotFound : Nat := 404
/-- The constant `http.StatusUnprocessableEntity`. -/
def StatusUnprocessableEntity : Nat := 422

/-- Modelled from the spec: the helper `check.IsEmptyOrWhiteSpace` (not among the sources):
the id is blank when it has no character other than white space. -/
def IsEmptyOrWhiteSpace (s : String) : Bool := s.data.all Char.isWhitespace

/-- What a handler writes: a JSON value, or the error body of `httperror.NewError`
("error bodies carry a message and status code"). -/
inductive Body (Out : Type) where
  /-- A JSON array of `dto.TodoOutput`. -/
  | list (xs : Slice Out)
  /-- The empty JSON object `gin.H{}`. -/
  | emptyObject
  /-- The body written by `httperror.NewError(ctx, status, message, err)`. -/
  | error (message : String) (err : Option GoError)

/-- The response of a handler: the status code and the body. -/
structure Response (Out : Type) where
  status : Nat
  body : Body Out

/-- The call `ctx.JSON(status, value)`. -/
def JSON {Out : Type} (status : Nat) (body : Body Out) : Response Out := ⟨status, body⟩

/-- The call `httperror.NewError(ctx, status, message, err)`. -/
def NewError {Out : Type} (status : Nat) (message : String) (err : Option GoError) :
    Response Out := ⟨status, Body.error message err⟩

/-- The interface `interfaces.TodoService` as the handlers call it, each method given by
its results; `Model` is the domain record. -/
structure TodoService (Model : Type) where
  GetAll : Slice Model × Option GoError
  Update : Model → Option GoError
  Delete : ID → Option GoError

/-- The request as a handler reads it, and the collaborators that are not among the
sources. `Input` is `dto.UpdateTodoInput`, `Out` is `dto.TodoOutput`. -/
structure Context (Input Model Out : Type) where
  /-- The path parameter `ctx.Param("id")`. -/
  paramId : String
  /-- The call `ctx.ShouldBindJSON(&updateTodoInput)`: the bound input, or the error. -/
  shouldBindJSON : Except GoError Input
  /-- The call `validator.Validate(updateTodoInput)`. -/
  validate : Input → Option GoError
  /-- The method `UpdateTodoInput.ToModel(todoId)`. -/
  toModel : Input → String → Model
  /-- The method `TodoOutput.FromModel(model)`. -/
  fromModel : Model → Out

namespace TodoController

variable {Input Model Out : Type}

/-- `TodoController.GetAll`. -/
def GetAll (svc : TodoService Model) (ctx : Context Input Model Out) : Response Out :=
  let (todoList, err) := svc.GetAll
  match err with
  | some err => NewError StatusUnprocessableEntity "Something went wrong!" (some err)
  | none =>
    let result : Slice Out := Slice.make0
    let result := (Slice.elems todoList).foldl
      (fun result model => Slice.append result (ctx.fromModel model)) result
    JSON StatusOK (Body.list result)

/-- `TodoController.Update`. -/
def Update (svc : TodoService Model) (ctx : Context Input Model Out) : Response Out :=
  let todoId := ctx.paramId
  if IsEmptyOrWhiteSpace todoId then
    NewError StatusBadRequest "ID is invalid." none
  else
    match ctx.shouldBindJSON with
    | .error err => NewError StatusBadRequest "Request model is invalid." (some err)
    | .ok updateTodoInput =>
      match ctx.validate updateTodoInput with
      | some err => NewError StatusBadRequest "Validation error" (some err)
      | none =>
        let model := ctx.toModel updateTodoInput todoId
        match svc.Update model with
        | some err => NewError StatusNotFound "The item failed to update." (some err)
        | none => JSON StatusNoContent Body.emptyObject

/-- `TodoController.Delete`. -/
def Delete (svc : TodoService Model) (ctx : Context Input Model Out) : Response Out :=
  let todoId := ctx.paramId
  if IsEmptyOrWhiteSpace todoId then
    NewError StatusBadRequest "ID is empty." none
  else
    match svc.Delete ⟨todoId⟩ with
    | some err => NewError StatusNotFound "The item failed to delete." (some err)
    | none => JSON StatusOK Body.emptyObject

end TodoController

/-! Sample values, used to evaluate the handlers on concrete inputs. -/

/-- A service every call of which succeeds, and which holds no record. -/
def okService : TodoService mongodb.Todo :=
  { GetAll := (none, none), Update := fun _ => none, Delete := fun _ => none }

/-- A request with the id `5f9d1c2e8b3a4d0012345678` and a body that binds and validates. -/
def sampleContext : Context mongodb.Todo mongodb.Todo mongodb.Todo :=
  { paramId := "5f9d1c2e8b3a4d0012345678"
    shouldBindJSON := .ok mongodb.sampleTodo
    validate := fun _ => none
    toModel := fun input todoId => { input with Id := ⟨todoId⟩ }
    fromModel := fun model => model }

end controller

/-! ## The service -/

namespace services

open domain

/-- The repository as the service tests mock it (`todo.MockTodoRepository`): one function
per operation, with the result types of `MockGetAll`, `MockGetById`, `MockInsert`,
`MockUpdate` and `MockDelete`. A `nil` pointer and `domain.NilID` are `none`. -/
structure TodoRepository (Todo : Type) where
  GetAll : Slice Todo × Option GoError
  GetById : ID → Option Todo × Option GoError
  Insert : Todo → Option ID × Option GoError
  Update : Todo → Option GoError
  Delete : ID → Option GoError

/-- Modelled from the spec: the service built by `NewTodoService` (`todo_service.go` is not
among the sources): it holds the repository it delegates to. -/
structure TodoService (Todo : Type) where
  TodoRepository : TodoRepository Todo

/-- Modelled from the spec: the constructor `NewTodoService`. -/
def NewTodoService {Todo : Type} (repo : TodoRepository Todo) : TodoService Todo := ⟨repo⟩

namespace TodoService

variable {Todo : Type}

/-- Modelled from the spec: `TodoService.GetAll` "calls the corresponding repository
operation and returns its result/error unchanged". -/
def GetAll (service : TodoService Todo) : Slice Todo × Option GoError :=
  service.TodoRepository.GetAll

/-- Modelled from the spec: `TodoService.Find` delegates to the repository `GetById`. -/
def Find (service : TodoService Todo) (todoId : ID) : Option Todo × Option GoError :=
  service.TodoRepository.GetById todoId

/-- Modelled from the spec: `TodoService.Create` delegates to the repository `Insert`. -/
def Create (service : TodoService Todo) (todo : Todo) : Option ID × Option GoError :=
  service.TodoRepository.Insert todo

/-- Modelled from the spec: `TodoService.Update` delegates to the repository `Update`. -/
def Update (service : TodoService Todo) (todo : Todo) : Option GoError :=
  service.TodoRepository.Update todo

/-- Modelled from the spec: `TodoService.Delete` delegates to the repository `Delete`. -/
def Delete (service : TodoService Todo) (todoId : ID) : Option GoError :=
  service.TodoRepository.Delete todoId

end TodoService

end services

/-! ## Facts about the in-memory collection -/

namespace mementodb

open uuid

namespace Collection

theorem get_nil (k : String) : get [] k = none := rfl

theorem get_cons (a : String) (v : Todo) (m : Collection) (k : String) :
    get ((a, v) :: m) k = if k = a then some v else get m k := by
  unfold get
  rw [List.lookup_cons]
  by_cases h : k = a
  · simp [h]
  · have hb : (k == a) = false := by simpa using h
    simp [hb, h]

theorem get_filter (m : Collection) (k j : String) :
    get (m.filter (fun p => p.1 != k)) j = if j = k then none else get m j := by
  induction m with
  | nil => simp [get_nil]
  | cons p m ih =>
    obtain ⟨a, v⟩ := p
    by_cases hak : a = k
    · subst hak
      have hf : ((a, v) :: m).filter (fun p => p.1 != a) = m.filter (fun p => p.1 != a) := by
        simp [List.filter_cons]
      rw [hf, ih, get_cons]
      by_cases hj : j = a <;> simp [hj]
    · have hf : ((a, v) :: m).filter (fun p => p.1 != k)
          = (a, v) :: m.filter (fun p => p.1 != k) := by
        simp [List.filter_cons, hak]
      rw [hf, get_cons, ih, get_cons]
      by_cases hj : j = k
      · have hja : j ≠ a := fun h => hak (h ▸ hj)
        simp [hj, hja, Ne.symm hak]
      · simp [hj]

theorem get_set_self (m : Collection) (k : String) (v : Todo) : get (set m k v) k = some v := by
  unfold set; rw [get_cons]; simp

theorem get_set_of_ne (m : Collection) (k j : String) (v : Todo) (h : j ≠ k) :
    get (set m k v) j = get m j := by
  unfold set; rw [get_cons, get_filter]; simp [h]

theorem get_delete_self (m : Collection) (k : String) : get (delete m k) k = none := by
  unfold delete; rw [get_filter]; simp

theorem get_eq_none_iff (m : Collection) (k : String) : get m k = none ↔ k ∉ keys m := by
  induction m with
  | nil => simp [get_nil, keys]
  | cons p m ih =>
    obtain ⟨a, v⟩ := p
    rw [get_cons]
    by_cases h : k = a
    · simp [h, keys]
    · simp only [h, if_false, ih, keys, List.map_cons, List.mem_cons, false_or]

theorem get_some_of_mem_keys (m : Collection) (k : String) (h : k ∈ keys m) :
    ∃ r, get m k = some r := by
  cases hg : get m k with
  | some r => exact ⟨r, rfl⟩
  | none => exact absurd h ((get_eq_none_iff m k).1 hg)

theorem mem_of_get (m : Collection) (k : String) (r : Todo) (h : get m k = some r) :
    (k, r) ∈ m := by
  induction m with
  | nil => simp [get_nil] at h
  | cons p m ih =>
    obtain ⟨a, v⟩ := p
    rw [get_cons] at h
    by_cases hk : k = a
    · simp [hk] at h; simp [hk, h]
    · simp [hk] at h; exact List.mem_cons_of_mem _ (ih h)

theorem keyedById_set (m : Collection) (k : String) (v : Todo) (hm : keyedById m)
    (hv : v.Id.String = k) : keyedById (set m k v) := by
  intro p hp
  unfold set at hp
  rcases List.mem_cons.1 hp with h | h
  · subst h; exact hv
  · exact hm p (List.mem_filter.1 h).1

end Collection

end mementodb

/-! ## The in-memory adapter: the contract -/

namespace mementodb

open uuid

namespace TodoAdapter

/-- C1. For every collection, every input Todo and every generated identifier other than the
nil one, `Insert` returns that identifier with no error, and `GetById` of the returned
identifier on the collection afterwards succeeds with a record whose Title, Description and
Completed are those of the inserted Todo and whose Id is the returned identifier, which is
not the nil identifier. -/
theorem insert_then_getById (m : Collection) (entity : Todo) (newId : UUID)
    (now1 now2 : Time) (hfresh : newId ≠ uuid.Nil) :
    (Insert m entity newId now1 now2).2 = (newId, none) ∧
    ∃ r : Todo,
      GetById (Insert m entity newId now1 now2).1 (Insert m entity newId now1 now2).2.1
        = (r, none) ∧
      r.Title = entity.Title ∧ r.Description = entity.Description ∧
      r.Completed = entity.Completed ∧
      r.Id = (Insert m entity newId now1 now2).2.1 ∧ r.Id ≠ uuid.Nil := by
  refine ⟨rfl, ?_⟩
  refine ⟨{ entity with Id := newId, CreatedAt := now1, UpdatedAt := now2 }, ?_, rfl, rfl, rfl,
    rfl, hfresh⟩
  simp only [Insert, GetById, Collection.get_set_self]

/-- A concrete instance of C1: inserting into the sample collection. -/
theorem insert_then_getById_witness :
    sampleId ≠ uuid.Nil ∧
    (Insert sampleStore sampleChange sampleId 8 9).2 = (sampleId, none) ∧
    ∃ r : Todo,
      GetById (Insert sampleStore sampleChange sampleId 8 9).1
          (Insert sampleStore sampleChange sampleId 8 9).2.1 = (r, none) ∧
      r.Title = sampleChange.Title ∧ r.Description = sampleChange.Description ∧
      r.Completed = sampleChange.Completed ∧
      r.Id = (Insert sampleStore sampleChange sampleId 8 9).2.1 ∧ r.Id ≠ uuid.Nil :=
  ⟨by decide, insert_then_getById sampleStore sampleChange sampleId 8 9 (by decide)⟩

/-- C2, evaluated on the code. `Update` of the sample record succeeds, and the `GetById` that
follows returns the new Title with the old Description and the old Completed flag: the
Description and Completed of the Todo passed to `Update` are not stored. -/
theorem update_drops_description_and_completed :
    (Update sampleStore sampleChange 9).2 = (true, none) ∧
    (GetById (Update sampleStore sampleChange 9).1 sampleChange.Id).2 = none ∧
    (GetById (Update sampleStore sampleChange 9).1 sampleChange.Id).1.Title = "Foo" ∧
    (GetById (Update sampleStore sampleChange 9).1 sampleChange.Id).1.Description
      = "Task 1 Desc" ∧
    (GetById (Update sampleStore sampleChange 9).1 sampleChange.Id).1.Description
      ≠ sampleChange.Description ∧
    (GetById (Update sampleStore sampleChange 9).1 sampleChange.Id).1.Completed = false ∧
    (GetById (Update sampleStore sampleChange 9).1 sampleChange.Id).1.Completed
      ≠ sampleChange.Completed := by
  decide

/-- C3. For every collection and every Todo whose identifier is not a key of the collection,
`Update` returns `false` with the error "Item not found", and the collection afterwards is
the collection before. -/
theorem update_missing (m : Collection) (entity : Todo) (now : Time)
    (hmissing : entity.Id.String ∉ Collection.keys m) :
    (Update m entity now).2 = (false, some ⟨"Item not found"⟩) ∧
    (Update m entity now).1 = m := by
  have hg : Collection.get m entity.Id.String = none := (Collection.get_eq_none_iff _ _).2 hmissing
  simp only [Update, hg, notFound, and_self]

/-- A concrete instance of C3: updating under the nil identifier, which the sample
collection does not hold. -/
theorem update_missing_witness :
    ({ sampleChange with Id := uuid.Nil } : Todo).Id.String ∉ Collection.keys sampleStore ∧
    (Update sampleStore { sampleChange with Id := uuid.Nil } 9).2
      = (false, some ⟨"Item not found"⟩) ∧
    (Update sampleStore { sampleChange with Id := uuid.Nil } 9).1 = sampleStore :=
  ⟨by decide, update_missing sampleStore { sampleChange with Id := uuid.Nil } 9 (by decide)⟩

/-- C4. For every collection and every identifier, `Delete` returns an error exactly when
the identifier is not a key of the collection, and that error is "Item not found"; when the
identifier is a key, `Delete` returns `(true, nil)` and a following `GetById` of that
identifier returns the not-found error. -/
theorem delete_contract (m : Collection) (id : UUID) :
    ((Delete m id).2.2 ≠ none ↔ id.String ∉ Collection.keys m) ∧
    (id.String ∉ Collection.keys m → (Delete m id).2 = (false, some ⟨"Item not found"⟩)) ∧
    (id.String ∈ Collection.keys m →
      (Delete m id).2 = (true, none) ∧
      GetById (Delete m id).1 id = (Todo.zero, some ⟨"Item not found"⟩)) := by
  cases hg : Collection.get m id.String with
  | none =>
    have hk : id.String ∉ Collection.keys m := (Collection.get_eq_none_iff _ _).1 hg
    refine ⟨?_, ?_, fun h => absurd h hk⟩
    · simp [Delete, hg, hk]
    · intro _; simp [Delete, hg, notFound]
  | some r =>
    have hk : id.String ∈ Collection.keys m := by
      by_contra h
      rw [(Collection.get_eq_none_iff _ _).2 h] at hg
      exact Option.noConfusion hg
    refine ⟨?_, fun h => absurd hk h, fun _ => ?_⟩
    · simp [Delete, hg, hk]
    · simp [Delete, GetById, hg, Collection.get_delete_self, notFound]

/-- A concrete instance of C4, on both sides: the sample identifier is stored, the nil
identifier is not. -/
theorem delete_contract_witness :
    (uuid.Nil.String ∉ Collection.keys sampleStore ∧
      (Delete sampleStore uuid.Nil).2 = (false, some ⟨"Item not found"⟩)) ∧
    (sampleId.String ∈ Collection.keys sampleStore ∧
      (Delete sampleStore sampleId).2 = (true, none) ∧
      GetById (Delete sampleStore sampleId).1 sampleId
        = (Todo.zero, some ⟨"Item not found"⟩)) :=
  ⟨⟨by decide, (delete_contract sampleStore uuid.Nil).2.1 (by decide)⟩,
   ⟨by decide, (delete_contract sampleStore sampleId).2.2 (by decide)⟩⟩

end TodoAdapter

end mementodb

/-! ## The in-memory adapter: invariants of `Update` -/

namespace mementodb

open uuid

namespace TodoAdapter

/-- What `Update` stores: when the identifier is stored with record `r`, the call succeeds
and the record afterwards is `r` with the Title of the argument and `UpdatedAt = now`. -/
theorem update_found (m : Collection) (entity r : Todo) (now : Time)
    (hr : Collection.get m entity.Id.String = some r) :
    (Update m entity now).2 = (true, none) ∧
    Collection.get (Update m entity now).1 entity.Id.String
      = some { r with Title := entity.Title, UpdatedAt := now } := by
  simp only [Update, hr, Collection.get_set_self, and_self]

/-- `Update` leaves every other key alone. -/
theorem update_other (m : Collection) (entity : Todo) (now : Time) (k : String)
    (hk : k ≠ entity.Id.String) :
    Collection.get (Update m entity now).1 k = Collection.get m k := by
  unfold Update
  cases hg : Collection.get m entity.Id.String with
  | none => rfl
  | some r => simp only [Collection.get_set_of_ne _ _ _ _ hk]

/-- C7. For every collection in which each record is keyed by its own identifier, and every
Todo passed to `Update`: the record stored under that identifier afterwards has the Id and
the CreatedAt of the record stored there before, every record stored under a different key
is unchanged, and each record is still keyed by its own identifier. -/
theorem update_preserves_id_and_createdAt (m : Collection) (entity : Todo) (now : Time)
    (hkeyed : Collection.keyedById m) :
    (∀ before : Todo, Collection.get m entity.Id.String = some before →
      ∃ after : Todo, Collection.get (Update m entity now).1 entity.Id.String = some after ∧
        after.Id = before.Id ∧ after.CreatedAt = before.CreatedAt) ∧
    (Collection.get m entity.Id.String = none →
      Collection.get (Update m entity now).1 entity.Id.String = none) ∧
    (∀ k : String, k ≠ entity.Id.String →
      Collection.get (Update m entity now).1 k = Collection.get m k) ∧
    Collection.keyedById (Update m entity now).1 := by
  refine ⟨?_, ?_, fun k hk => update_other m entity now k hk, ?_⟩
  · intro before hb
    exact ⟨_, (update_found m entity before now hb).2, rfl, rfl⟩
  · intro hn
    simp only [Update, hn]
  · cases hg : Collection.get m entity.Id.String with
    | none => simpa only [Update, hg] using hkeyed
    | some r =>
      simp only [Update, hg]
      exact Collection.keyedById_set m _ _ hkeyed (hkeyed _ (Collection.mem_of_get m _ r hg))

/-- A concrete instance of C7 on the sample collection: the record of `sampleId` keeps its
Id and its CreatedAt. -/
theorem update_preserves_id_and_createdAt_witness :
    Collection.keyedById sampleStore ∧
    Collection.get sampleStore sampleChange.Id.String = some sampleTodo ∧
    ∃ after : Todo,
      Collection.get (Update sampleStore sampleChange 9).1 sampleChange.Id.String = some after ∧
      after.Id = sampleTodo.Id ∧ after.CreatedAt = sampleTodo.CreatedAt :=
  ⟨by decide, by decide,
   (update_preserves_id_and_createdAt sampleStore sampleChange 9 (by decide)).1 sampleTodo
     (by decide)⟩

/-- What `Insert` stores: the record under the new identifier is the argument with that
identifier, `CreatedAt = now1` and `UpdatedAt = now2`. -/
theorem insert_found (m : Collection) (entity : Todo) (newId : UUID) (now1 now2 : Time) :
    Collection.get (Insert m entity newId now1 now2).1 newId.String
      = some { entity with Id := newId, CreatedAt := now1, UpdatedAt := now2 } := by
  simp only [Insert, Collection.get_set_self]

/-- `Insert` leaves every other key alone. -/
theorem insert_other (m : Collection) (entity : Todo) (newId : UUID) (now1 now2 : Time)
    (k : String) (hk : k ≠ newId.String) :
    Collection.get (Insert m entity newId now1 now2).1 k = Collection.get m k := by
  simp only [Insert, Collection.get_set_of_ne _ _ _ _ hk]

/-- `Delete` leaves every other key alone. -/
theorem delete_other (m : Collection) (id : UUID) (k : String) (hk : k ≠ id.String) :
    Collection.get (Delete m id).1 k = Collection.get m k := by
  unfold Delete
  cases hg : Collection.get m id.String with
  | none => rfl
  | some r => simp only [Collection.delete, Collection.get_filter, hk, if_false]

/-- After `Delete` nothing is stored under the identifier. -/
theorem delete_self (m : Collection) (id : UUID) :
    Collection.get (Delete m id).1 id.String = none := by
  unfold Delete
  cases hg : Collection.get m id.String with
  | none => simpa only using hg
  | some r => simp only [Collection.get_delete_self]

/-- One call: the record found under a key afterwards either carries in UpdatedAt the
reading the call took to write it, or is the record that was there before the call. -/
theorem run_updatedAt (c : Call) (m : Collection) (k : String) (r : Todo)
    (hr : Collection.get (c.run m) k = some r) :
    match c.reading m k with
    | some t => r.UpdatedAt = t
    | none => Collection.get m k = some r := by
  cases c with
  | insert entity newId now1 now2 =>
    by_cases h : newId.String = k
    · subst h
      simp only [Call.run, insert_found, Option.some.injEq] at hr
      simp only [Call.reading, if_true, ← hr]
    · simp only [Call.run, insert_other m entity newId now1 now2 k (Ne.symm h)] at hr
      simp only [Call.reading, h, if_false, hr]
  | update entity now =>
    by_cases h : entity.Id.String = k
    · subst h
      cases hg : Collection.get m entity.Id.String with
      | none =>
        have hm : (Update m entity now).1 = m := by simp only [Update, hg]
        rw [Call.run, hm, hg] at hr
        exact Option.noConfusion hr
      | some r0 =>
        simp only [Call.run, (update_found m entity r0 now hg).2, Option.some.injEq] at hr
        simp only [Call.reading, hg, Option.isSome_some, and_self, if_true, ← hr]
    · simp only [Call.run, update_other m entity now k (Ne.symm h)] at hr
      simp only [Call.reading, h, false_and, if_false, hr]
  | delete id =>
    by_cases h : id.String = k
    · subst h
      simp only [Call.run, delete_self] at hr
      exact Option.noConfusion hr
    · simp only [Call.run, delete_other m id k (Ne.symm h)] at hr
      simp only [Call.reading, hr]

/-- A history of calls from any collection: the record found under a key afterwards carries
in UpdatedAt the reading taken by the last write of that record in the history, and is the
record of the starting collection when the history does not write it. -/
theorem updatedAt_eq_lastReading (cs : List Call) (m : Collection) (k : String) (r : Todo)
    (hr : Collection.get (runAll cs m) k = some r) :
    match lastReading k m cs with
    | some t => r.UpdatedAt = t
    | none => Collection.get m k = some r := by
  induction cs generalizing m with
  | nil => simpa only [lastReading, runAll] using hr
  | cons c cs ih =>
    have h1 := ih (c.run m) (by simpa only [runAll] using hr)
    unfold lastReading
    cases hl : lastReading k (c.run m) cs with
    | some t => simpa only [hl] using h1
    | none =>
      simp only [hl] at h1
      exact run_updatedAt c m k r h1

/-- C8. For every collection and every Todo whose identifier is stored, with record `before`:
if the reading `now` taken by `Update` is not earlier than `before.UpdatedAt`, the reading
taken by the previous write of that record (`updatedAt_eq_lastReading`), then `Update`
succeeds, the record stays stored, its UpdatedAt afterwards is `now`, and that is at least
its UpdatedAt before. -/
theorem update_updatedAt_monotone (m : Collection) (entity before : Todo) (now : Time)
    (hstored : Collection.get m entity.Id.String = some before)
    (hclock : before.UpdatedAt ≤ now) :
    (Update m entity now).2 = (true, none) ∧
    ∃ after : Todo,
      Collection.get (Update m entity now).1 entity.Id.String = some after ∧
      after.UpdatedAt = now ∧ before.UpdatedAt ≤ after.UpdatedAt := by
  have hu := update_found m entity before now hstored
  exact ⟨hu.1, _, hu.2, rfl, hclock⟩

/-- A concrete instance of C8 on the collection of two records: the record of `sampleId` was
written with reading 7, another record was written after it, and the update reads 9. -/
theorem update_updatedAt_monotone_witness :
    Collection.get sampleStore2 sampleChange.Id.String = some sampleTodo ∧
    lastReading sampleChange.Id.String [] sampleHistory = some sampleTodo.UpdatedAt ∧
    sampleTodo.UpdatedAt ≤ 9 ∧
    (Update sampleStore2 sampleChange 9).2 = (true, none) ∧
    ∃ after : Todo,
      Collection.get (Update sampleStore2 sampleChange 9).1 sampleChange.Id.String
        = some after ∧
      after.UpdatedAt = 9 ∧ sampleTodo.UpdatedAt ≤ after.UpdatedAt :=
  ⟨by decide, by decide, by decide,
   update_updatedAt_monotone sampleStore2 sampleChange sampleTodo 9 (by decide) (by decide)⟩

end TodoAdapter

end mementodb

/-! ## The controller: status codes -/

namespace controller

namespace TodoController

variable {Input Model Out : Type}

/-- The `Update` handler answers 204 whenever the id is not blank, the body binds and
validates, and the service returns no error. -/
theorem update_success_status (svc : TodoService Model) (ctx : Context Input Model Out)
    (input : Input) (hid : IsEmptyOrWhiteSpace ctx.paramId = false)
    (hbind : ctx.shouldBindJSON = .ok input) (hvalid : ctx.validate input = none)
    (hsvc : svc.Update (ctx.toModel input ctx.paramId) = none) :
    (Update svc ctx).status = 204 := by
  simp [Update, hid, hbind, hvalid, hsvc, JSON, StatusNoContent]

/-- The `Delete` handler answers 200 whenever the id is not blank and the service returns
no error. -/
theorem delete_success_status (svc : TodoService Model) (ctx : Context Input Model Out)
    (hid : IsEmptyOrWhiteSpace ctx.paramId = false) (hsvc : svc.Delete ⟨ctx.paramId⟩ = none) :
    (Delete svc ctx).status = 200 := by
  simp [Delete, hid, hsvc, JSON, StatusOK]

/-- C5, evaluated on the code. For a request with a non-blank id, a body that binds and
validates, and a service that returns no error, the `Update` handler answers 204 and the
`Delete` handler answers 200, not 204. -/
theorem delete_answers_200_not_204 :
    IsEmptyOrWhiteSpace sampleContext.paramId = false ∧
    okService.Delete ⟨sampleContext.paramId⟩ = none ∧
    (Update okService sampleContext).status = 204 ∧
    (Delete okService sampleContext).status = 200 ∧
    (Delete okService sampleContext).status ≠ 204 := by
  refine ⟨by decide, rfl, ?_, ?_, ?_⟩
  · exact update_success_status okService sampleContext mongodb.sampleTodo (by decide) rfl rfl rfl
  · exact delete_success_status okService sampleContext (by decide) rfl
  · rw [delete_success_status okService sampleContext (by decide) rfl]; decide

/-- C9. On the empty collection the in-memory `GetAll` returns the nil list and the nil
error; and the `GetAll` handler, when the service returns a nil or an empty list with no
error, answers 200 with an empty (non-nil) list, not an error. -/
theorem getAll_empty (svc : TodoService Model) (ctx : Context Input Model Out) :
    mementodb.TodoAdapter.GetAll [] = (none, none) ∧
    (svc.GetAll = (none, none) ∨ svc.GetAll = (some [], none) →
      GetAll svc ctx = ⟨200, Body.list (some [])⟩) := by
  refine ⟨rfl, ?_⟩
  intro h
  rcases h with h | h <;> simp [GetAll, h, JSON, StatusOK, Slice.make0, Slice.elems]

/-- A concrete instance of C9: the handler over a service that returns the nil list. -/
theorem getAll_empty_witness :
    mementodb.TodoAdapter.GetAll [] = (none, none) ∧
    (okService.GetAll = (none, none) ∨ okService.GetAll = (some [], none)) ∧
    GetAll okService sampleContext = ⟨200, Body.list (some [])⟩ :=
  ⟨rfl, Or.inl rfl, (getAll_empty okService sampleContext).2 (Or.inl rfl)⟩

end TodoController

end controller

/-! ## The document-store adapter: the connection -/

namespace mongodb

open domain

namespace TodoAdapter

variable {OID Doc : Type}

/-- `GetById` leaves the connection as closed as it found it, on every path. -/
theorem getById_closed (drv : Driver OID Doc) (db : DbContext) (id : ID)
    (h : db.connected = false) : (GetById drv db id).1.connected = false := by
  unfold GetById
  cases drv.objectIDFromHex id.String with
  | error e => exact h
  | ok oid =>
    simp only
    cases (drv.findOne oid).2 <;> rfl

/-- `Insert` leaves the connection as closed as it found it, on every path. -/
theorem insert_closed (drv : Driver OID Doc) (db : DbContext) (todo : Todo)
    (h : db.connected = false) : (Insert drv db todo).1.connected = false := by
  unfold Insert
  simp only
  cases (drv.fromModel todo).2 with
  | some e => exact h
  | none =>
    simp only
    cases drv.insertOne (drv.fromModel todo).1 <;> rfl

/-- `Update` leaves the connection as closed as it found it, on every path. -/
theorem update_closed (drv : Driver OID Doc) (db : DbContext) (todo : Todo) (now : Time)
    (h : db.connected = false) : (Update drv db todo now).1.connected = false := by
  unfold Update
  cases drv.objectIDFromHex todo.Id.String with
  | error e => exact h
  | ok oid =>
    simp only
    cases drv.updateOne oid _ with
    | error e => rfl
    | ok n => simp only; split <;> rfl

/-- `Delete` leaves the connection as closed as it found it, on every path. -/
theorem delete_closed (drv : Driver OID Doc) (db : DbContext) (id : ID)
    (h : db.connected = false) : (Delete drv db id).1.connected = false := by
  unfold Delete
  cases drv.objectIDFromHex id.String with
  | error e => exact h
  | ok oid =>
    simp only
    cases drv.deleteOne oid with
    | error e => rfl
    | ok n => simp only; split <;> rfl

/-- `GetAll` closes the connection when neither `Find` nor the cursor reports an error. -/
theorem getAll_closed_of_success (drv : Driver OID Doc) (db : DbContext) (cur : Cursor Doc)
    (hfind : drv.find = .ok cur) (hcur : cur.err = none) :
    (GetAll drv db).1.connected = false := by
  simp only [GetAll, hfind, hcur, DbContext.Disconnect]

/-- `GetAll` returns with the connection open whenever `Find` returns an error. -/
theorem getAll_open_of_find_error (drv : Driver OID Doc) (db : DbContext) (err : GoError)
    (hfind : drv.find = .error err) :
    GetAll drv db = ({ connected := true }, (none, some err)) := by
  simp only [GetAll, hfind, DbContext.Connect]

/-- `GetAll` returns with the connection open whenever the cursor reports an error. -/
theorem getAll_open_of_cursor_error (drv : Driver OID Doc) (db : DbContext) (cur : Cursor Doc)
    (err : GoError) (hfind : drv.find = .ok cur) (hcur : cur.err = some err) :
    GetAll drv db = ({ connected := true }, (none, some err)) := by
  simp only [GetAll, hfind, hcur, DbContext.Connect]

/-- C6, evaluated on the code. Starting with the connection closed and a driver whose calls
fail, `GetById`, `Insert`, `Update` and `Delete` return with the connection closed, while
`GetAll` returns the driver error with the connection still open, both when `Find` fails and
when the cursor reports an error. -/
theorem getAll_leaves_connection_open :
    (GetAll failingDriver ⟨false⟩).2 = (none, some ⟨"connection error"⟩) ∧
    (GetAll failingDriver ⟨false⟩).1.connected = true ∧
    (GetAll brokenCursorDriver ⟨false⟩).2 = (none, some ⟨"cursor error"⟩) ∧
    (GetAll brokenCursorDriver ⟨false⟩).1.connected = true ∧
    (GetById failingDriver ⟨false⟩ sampleTodo.Id).1.connected = false ∧
    (Insert failingDriver ⟨false⟩ sampleTodo).1.connected = false ∧
    (Update failingDriver ⟨false⟩ sampleTodo 9).1.connected = false ∧
    (Delete failingDriver ⟨false⟩ sampleTodo.Id).1.connected = false := by
  decide

end TodoAdapter

end mongodb

/-! ## The service: delegation -/

namespace services

open domain

namespace TodoService

variable {Todo : Type}

/-- C10. For every repository and every argument, each operation of the service built on
that repository returns exactly the pair of value and error that the corresponding
repository operation returns for the same argument. -/
theorem service_delegates (repo : services.TodoRepository Todo) (todo : Todo) (todoId : ID) :
    GetAll (NewTodoService repo) = repo.GetAll ∧
    Find (NewTodoService repo) todoId = repo.GetById todoId ∧
    Create (NewTodoService repo) todo = repo.Insert todo ∧
    Update (NewTodoService repo) todo = repo.Update todo ∧
    Delete (NewTodoService repo) todoId = repo.Delete todoId :=
  ⟨rfl, rfl, rfl, rfl, rfl⟩

/-- The test `Test_Get_All_Delete_Should_Return_Error_When_Has_Connection_Error`: the error
of the repository comes back with its message, and the list is nil. -/
theorem test_getAll_connection_error (repo : services.TodoRepository Todo) (errorMessage : GoError)
    (hmock : repo.GetAll = (none, some errorMessage)) :
    (GetAll (NewTodoService repo)).2 = some errorMessage ∧
    (GetAll (NewTodoService repo)).1 = none := by
  simp [GetAll, NewTodoService, hmock]

/-- The test `Test_Get_All_Delete_Should_Return_Nil_When_There_Are_No_Items`. -/
theorem test_getAll_no_items (repo : services.TodoRepository Todo) (hmock : repo.GetAll = (none, none)) :
    GetAll (NewTodoService repo) = (none, none) := by
  simp [GetAll, NewTodoService, hmock]

/-- The tests of `Create`: the identifier of the repository comes back on success, and its
error with `domain.NilID` on failure. -/
theorem test_create (repo : services.TodoRepository Todo) (model : Todo) (r : Option ID × Option GoError)
    (hmock : repo.Insert model = r) : Create (NewTodoService repo) model = r := by
  simp [Create, NewTodoService, hmock]

/-- The tests of `Update` and `Delete` with a missing item: the error of the repository
comes back unchanged. -/
theorem test_update_delete_not_found (repo : services.TodoRepository Todo) (model : Todo) (id : ID)
    (errorMessage : GoError) (hupdate : repo.Update model = some errorMessage)
    (hdelete : repo.Delete id = some errorMessage) :
    Update (NewTodoService repo) model = some errorMessage ∧
    Delete (NewTodoService repo) id = some errorMessage := by
  simp [Update, Delete, NewTodoService, hupdate, hdelete]

end TodoService

end services
